import Mathlib

/-!
Verification development for the prediction classification and tally engine
of the sports-tally-scraper repository (source files tally_predictions.py
and app.py).  Text is modelled as a list of characters.  The regular
expressions of the source are translated into explicit matching functions
with Python re.search semantics: leftmost match wins, greedy and lazy
quantifier preferences are implemented by trying the preferred branch first
and backtracking on failure, alternation is tried in written order, and
word boundaries are decided over ASCII word characters.  All definitions
are structurally recursive so that concrete runs evaluate inside the kernel.
-/

namespace TallyScraper

/-- Text is modelled as a list of characters. -/
abbrev Chars := List Char

/-- Python regex whitespace class over ASCII: space, tab, newline, carriage
return, vertical tab, form feed. -/
def isPySpace (c : Char) : Bool :=
  c == ' ' || c == '\t' || c == '\n' || c == '\r' || c == '\x0b' || c == '\x0c'

/-- Python regex word character over ASCII: letters, digits, underscore. -/
def isWordChar (c : Char) : Bool := c.isAlphanum || c == '_'

/-- Character class of the opponent and free-text slots in the source
patterns: ASCII letters, whitespace, dot, apostrophe.  This is the class
written in the source as letters, backslash-s, escaped dot and apostrophe
(tally_predictions.py lines 173, 182, 201, 209, 256-258). -/
def oppChar (c : Char) : Bool := c.isAlpha || isPySpace c || c == '.' || c == '\''

/-- Separator class of the score patterns: comma, en dash, hyphen. -/
def sepChar (c : Char) : Bool := c == ',' || c == '–' || c == '-'

/-- Class of colon-or-whitespace, used after the final-score and weak-field
keywords. -/
def colonWS (c : Char) : Bool := c == ':' || isPySpace c

/-- Maximal munch of whitespace, the deterministic case of a greedy
backslash-s star whose continuation cannot start with whitespace. -/
def skipWS (s : Chars) : Chars := s.dropWhile isPySpace

/-- Maximal munch of colons and whitespace, for the colon-or-space star
after the final-score keyword. -/
def skipColonWS (s : Chars) : Chars := s.dropWhile colonWS

/-- ASCII lower-casing of a character list, modelling str.lower on the
inputs the program handles. -/
def lcList (s : Chars) : Chars := s.map Char.toLower

/-- Leading and trailing whitespace removal, modelling str.strip. -/
def stripChars (s : Chars) : Chars :=
  ((s.dropWhile isPySpace).reverse.dropWhile isPySpace).reverse

/-- Characters that Python re.escape prepends a backslash to (the special
set of the re module: brackets, quantifiers, anchors, dot, backslash,
ampersand, tilde, hash and whitespace). -/
def isReSpecial (c : Char) : Bool :=
  c == '(' || c == ')' || c == '[' || c == ']' || c == '\x7b' || c == '\x7d' ||
  c == '?' || c == '*' || c == '+' || c == '-' || c == '|' || c == '^' ||
  c == '$' || c == '\\' || c == '.' || c == '&' || c == '~' || c == '#' ||
  c == ' ' || c == '\t' || c == '\n' || c == '\r' || c == '\x0b' || c == '\x0c'

/-- Length of re.escape applied to a synonym: each special character gains
one backslash.  The source sorts the escaped synonyms by this length
(tally_predictions.py line 168). -/
def escLen (s : Chars) : Nat := s.length + (s.filter isReSpecial).length

/-- Ordering used by make_team_patterns: longer escaped form first. -/
def escOrder (a b : Chars) : Prop := escLen b ≤ escLen a

instance : DecidableRel escOrder := fun a b => inferInstanceAs (Decidable (escLen b ≤ escLen a))

instance : IsTotal Chars escOrder := ⟨fun a b => Nat.le_total (escLen b) (escLen a)⟩

instance : IsTrans Chars escOrder := ⟨fun _ _ _ h₁ h₂ => Nat.le_trans h₂ h₁⟩

/-- Sorting of the synonym list by descending escaped length, modelling the
sorted call with key len and reverse true on line 168 of the source.  The
iteration order of the underlying Python set is arbitrary, so only the
length ordering of the result is specified. -/
def sortByEscLen (l : List Chars) : List Chars := List.insertionSort escOrder l

/-- Duplicate removal keeping the first occurrence, a deterministic model of
collecting strings into a Python set. -/
def dedupAux (seen : List Chars) : List Chars → List Chars
  | [] => []
  | x :: xs => if seen.contains x then dedupAux seen xs else x :: dedupAux (x :: seen) xs

/-- Lower-cased, stripped, deduplicated synonym set of a team, modelling the
set comprehension on line 166 of the source (syn_set). -/
def synList (team : List Chars) : List Chars :=
  dedupAux [] ((team.filter (fun s => !(stripChars s).isEmpty)).map (fun s => lcList (stripChars s)))

/-- Case-insensitive literal match of a lower-cased pattern against the
front of the input, returning the remainder on success.  Matching an
re.escape-d literal is the same as matching the original string literally. -/
def ciPref : Chars → Chars → Option Chars
  | [], s => some s
  | _ :: _, [] => none
  | p :: ps, c :: cs => if c.toLower == p then ciPref ps cs else none

/-- Alternation over the synonym list with continuation backtracking:
alternatives are tried in list order, and an alternative is kept only if
the continuation succeeds on its remainder, as a backtracking regex engine
does.  Returns the captured original-case slice and the continuation
result. -/
def nameAltRest {β : Type} (syns : List Chars) (k : Chars → Option β) (s : Chars) : Option (Chars × β) :=
  syns.findSome? fun y =>
    match ciPref y s with
    | some r =>
      match k r with
      | some b => some (s.take y.length, b)
      | none => none
    | none => none

/-- Greedy dot-star with continuation backtracking, modelling the catch-all
group that make_team_patterns emits when the synonym set is empty (line
169).  Dot does not match a newline; the longest capture whose continuation
succeeds is preferred. -/
def dotStarGo {β : Type} (k : Chars → Option β) : Chars → Option (Chars × β)
  | [] =>
    match k [] with
    | some b => some ([], b)
    | none => none
  | c :: cs =>
    if c == '\n' then
      match k (c :: cs) with
      | some b => some ([], b)
      | none => none
    else
      match dotStarGo k cs with
      | some (cap, b) => some (c :: cap, b)
      | none =>
        match k (c :: cs) with
        | some b => some ([], b)
        | none => none

/-- The name group of make_team_patterns: the synonym alternation when
synonyms exist, otherwise the catch-all dot-star group (line 169). -/
def nameGroupRest {β : Type} (syns : List Chars) (k : Chars → Option β) (s : Chars) : Option (Chars × β) :=
  if syns.isEmpty then dotStarGo k s else nameAltRest syns k s

/-- Numeric value of a digit character. -/
def digitVal (c : Char) : Nat := c.toNat - 48

/-- Greedy one-or-two digit group with continuation backtracking: two digits
are preferred, one is retried when the continuation rejects the two-digit
parse, exactly as the regex engine treats a digit quantifier of one to two. -/
def digits12 {β : Type} (k : Chars → Option β) : Chars → Option (Nat × β)
  | [] => none
  | [c] =>
    if c.isDigit then
      match k [] with
      | some b => some (digitVal c, b)
      | none => none
    else none
  | c1 :: c2 :: r =>
    if c1.isDigit then
      if c2.isDigit then
        match k r with
        | some b => some (10 * digitVal c1 + digitVal c2, b)
        | none =>
          match k (c2 :: r) with
          | some b => some (digitVal c1, b)
          | none => none
      else
        match k (c2 :: r) with
        | some b => some (digitVal c1, b)
        | none => none
    else none

/-- Continuation after the lazy free-text group: whitespace star then the
final one-or-two digit group, returning the parsed score and remainder. -/
def afterLazy (s : Chars) : Option (Nat × Chars) := digits12 some (skipWS s)

/-- Lazy plus over the free-text class followed by whitespace and digits:
the group takes as few characters as possible, growing one character at a
time until the digit continuation succeeds.  Returns the captured group,
the trailing score and the remainder. -/
def lazyFrom : Chars → Option (Chars × Nat × Chars)
  | [] => none
  | c :: cs =>
    if oppChar c then
      match afterLazy cs with
      | some (n, rem) => some ([c], n, rem)
      | none =>
        match lazyFrom cs with
        | some (g, n, rem) => some (c :: g, n, rem)
        | none => none
    else none

/-- Greedy whitespace star in front of the lazy free-text group: consuming
more whitespace is preferred, and on failure the whitespace is handed to
the free-text class, which also contains whitespace. -/
def wsLazy : Chars → Option (Chars × Nat × Chars)
  | [] => none
  | c :: cs =>
    if isPySpace c then
      match wsLazy cs with
      | some r => some r
      | none => lazyFrom (c :: cs)
    else lazyFrom (c :: cs)

/-- Tail of the strong final-score and scoreline patterns after the name
group: whitespace, first score, whitespace, separator, then the lazy
free-text group and second score (tally_predictions.py lines 182 and
201).  Returns first score, lazy capture, second score, remainder. -/
def scoreTailRest (s : Chars) : Option (Nat × Chars × Nat × Chars) :=
  digits12 (fun r =>
    match skipWS r with
    | c :: r2 => if sepChar c then wsLazy r2 else none
    | [] => none) (skipWS s)

/-- Tail of the context final-score pattern after the name group (line 173):
whitespace, one-or-two digits, a separator directly after the digits, then
a greedy non-empty free-text run that absorbs surrounding whitespace, then
one-or-two digits.  Only the remainder is needed because this pattern
captures nothing beyond the name. -/
def ctx1Rest (s : Chars) : Option Chars :=
  (digits12 (fun r =>
    match r with
    | c :: r2 =>
      if sepChar c then
        let opp := r2.takeWhile oppChar
        if opp.isEmpty then none
        else
          match digits12 some (r2.drop opp.length) with
          | some p => some p.2
          | none => none
      else none
    | [] => none) (skipWS s)).map (fun p => p.2)

/-- Optional colon-or-hyphen with backtracking: consuming the punctuation is
preferred, skipping it is retried when the continuation fails. -/
def optColonDash {β : Type} (k : Chars → Option β) (s : Chars) : Option β :=
  match s with
  | [] => k []
  | c :: cs =>
    if c == ':' || c == '-' then
      match k cs with
      | some b => some b
      | none => k (c :: cs)
    else k (c :: cs)

/-- Optional question-mark-or-colon with backtracking, for the who-wins
pattern. -/
def optQC {β : Type} (k : Chars → Option β) (s : Chars) : Option β :=
  match s with
  | [] => k []
  | c :: cs =>
    if c == '?' || c == ':' then
      match k cs with
      | some b => some b
      | none => k (c :: cs)
    else k (c :: cs)

/-- Shared tail of the keyworded context patterns: whitespace star, optional
colon or hyphen, whitespace star, then the name group.  Returns the name
capture and the remainder. -/
def ctxTail (syns : List Chars) (s : Chars) : Option (Chars × Chars) :=
  optColonDash (fun t => nameGroupRest syns some (skipWS t)) (skipWS s)

/-- Optional non-capturing group of the to-win pattern: outright, or
straight whitespace up, or nothing, tried in that order with backtracking. -/
def optOutright {β : Type} (k : Chars → Option β) (s : Chars) : Option β :=
  match (ciPref "outright".toList s).bind k with
  | some b => some b
  | none =>
    match (ciPref "straight".toList s).bind (fun r => (ciPref "up".toList (skipWS r)).bind k) with
    | some b => some b
    | none => k s

/-- The eight context patterns of make_team_patterns in their source order
(tally_predictions.py lines 171-181). -/
inductive CtxPat
  | finalScore
  | moneylinePick
  | pick
  | prediction
  | whoWins
  | toWin
  | winner
  | straightUp
deriving DecidableEq

/-- Source order of the context pattern list. -/
def ctxList : List CtxPat :=
  [CtxPat.finalScore, CtxPat.moneylinePick, CtxPat.pick, CtxPat.prediction,
   CtxPat.whoWins, CtxPat.toWin, CtxPat.winner, CtxPat.straightUp]

/-- Match of one context pattern at the current position, returning the name
capture and the remainder.  Each branch transcribes one pattern string of
make_team_patterns. -/
def ctxAt : CtxPat → List Chars → Chars → Option (Chars × Chars)
  | CtxPat.finalScore, syns, s =>
    match ciPref "final".toList s with
    | none => none
    | some r1 =>
      match ciPref "score".toList (skipWS r1) with
      | none => none
      | some r2 => nameGroupRest syns ctx1Rest (skipColonWS r2)
  | CtxPat.moneylinePick, syns, s =>
    match ciPref "moneyline".toList s with
    | none => none
    | some r1 =>
      match ciPref "pick".toList (skipWS r1) with
      | none => none
      | some r2 => ctxTail syns r2
  | CtxPat.pick, syns, s =>
    match ciPref "pick".toList s with
    | none => none
    | some r => ctxTail syns r
  | CtxPat.prediction, syns, s =>
    match ciPref "prediction".toList s with
    | none => none
    | some r => ctxTail syns r
  | CtxPat.whoWins, syns, s =>
    match ciPref "who".toList s with
    | none => none
    | some r1 =>
      match ciPref "wins".toList (skipWS r1) with
      | none => none
      | some r2 => optQC (fun t => nameGroupRest syns some (skipWS t)) r2
  | CtxPat.toWin, syns, s =>
    match ciPref "to".toList s with
    | none => none
    | some r1 =>
      match ciPref "win".toList (skipWS r1) with
      | none => none
      | some r2 => optOutright (ctxTail syns) (skipWS r2)
  | CtxPat.winner, syns, s =>
    match ciPref "winner".toList s with
    | none => none
    | some r => ctxTail syns r
  | CtxPat.straightUp, syns, s =>
    match ciPref "straight".toList s with
    | none => none
    | some r1 =>
      match ciPref "up".toList (skipWS r1) with
      | none => none
      | some r2 => ctxTail syns r2

/-- Leftmost search: the match attempt is made at every position from the
left, the first position where the pattern matches wins, as in re.search.
Returns the suffix at the match position, the captures and the remainder. -/
def searchA {β : Type} (m : Chars → Option (β × Chars)) : Chars → Option (Chars × β × Chars)
  | [] =>
    match m [] with
    | some (b, r) => some ([], b, r)
    | none => none
  | c :: cs =>
    match m (c :: cs) with
    | some (b, r) => some (c :: cs, b, r)
    | none => searchA m cs

/-- Leftmost search that also tracks the character before the current
position, needed for patterns that begin with a word boundary. -/
def searchB {β : Type} (m : Option Char → Chars → Option (β × Chars)) :
    Option Char → Chars → Option (Chars × β × Chars)
  | prev, [] =>
    match m prev [] with
    | some (b, r) => some ([], b, r)
    | none => none
  | prev, c :: cs =>
    match m prev (c :: cs) with
    | some (b, r) => some (c :: cs, b, r)
    | none => searchB m (some c) cs

/-- Whole-match slice: the prefix of the suffix at the match position that
the match consumed. -/
def mkG0 (suf rem : Chars) : Chars := suf.take (suf.length - rem.length)

/-- Match result with whole-match slice and one capture group. -/
structure MatchG where
  g0 : Chars
  g1 : Chars
deriving DecidableEq

/-- Match result of a score-style pattern: whole match, name capture, and
the two parsed scores. -/
structure MatchS where
  g0 : Chars
  g1 : Chars
  s1 : Nat
  s2 : Nat
deriving DecidableEq

/-- Search of one context pattern over the whole text. -/
def ctxSearch (p : CtxPat) (sorted : List Chars) (text : Chars) : Option MatchG :=
  (searchA (ctxAt p sorted) text).map (fun t => ⟨mkG0 t.1 t.2.2, t.2.1⟩)

/-- Match of the strong final-score regex of choose_winner (lines 200-214)
at the current position: the final-score keyword, colons or spaces, the
plain synonym alternation, then the score tail.  The alternation joins the
synonym set without sorting, so the deduplicated set list is used directly. -/
def mfsAt (setL : List Chars) (s : Chars) : Option ((Chars × Nat × Nat) × Chars) :=
  match ciPref "final".toList s with
  | none => none
  | some r1 =>
    match ciPref "score".toList (skipWS r1) with
    | none => none
    | some r2 =>
      (nameAltRest setL scoreTailRest (skipColonWS r2)).map
        (fun p => ((p.1, p.2.1, p.2.2.2.1), p.2.2.2.2))

/-- Search of the strong final-score regex over the whole text. -/
def mfsSearch (setL : List Chars) (text : Chars) : Option MatchS :=
  (searchA (mfsAt setL) text).map
    (fun t => ⟨mkG0 t.1 t.2.2, t.2.1.1, t.2.1.2.1, t.2.1.2.2⟩)

/-- Match of the scoreline pattern of make_team_patterns (line 182) at the
current position: the sorted name group followed by the score tail. -/
def scoreAt (sorted : List Chars) (s : Chars) : Option ((Chars × Nat × Nat) × Chars) :=
  (nameGroupRest sorted scoreTailRest s).map
    (fun p => ((p.1, p.2.1, p.2.2.2.1), p.2.2.2.2))

/-- Search of the scoreline pattern over the whole text. -/
def scoreSearch (sorted : List Chars) (text : Chars) : Option MatchS :=
  (searchA (scoreAt sorted) text).map
    (fun t => ⟨mkG0 t.1 t.2.2, t.2.1.1, t.2.1.2.1, t.2.1.2.2⟩)

/-- Word-boundary test on the left of a position whose character is a word
character: satisfied at the start of the text or after a non-word
character. -/
def prevNonWord : Option Char → Bool
  | none => true
  | some c => !isWordChar c

/-- Word-boundary test on the right of a match that ends in a word
character: satisfied at the end of the text or before a non-word character. -/
def nextNonWord : Chars → Bool
  | [] => true
  | c :: _ => !isWordChar c

/-- The three guard words of looks_like_spread. -/
def spreadWords : List Chars := ["spread".toList, "cover".toList, "ats".toList]

/-- Test whether one of the guard words matches at the current position with
a word boundary after it. -/
def spreadWordHere (s : Chars) : Bool :=
  spreadWords.any fun w =>
    match ciPref w s with
    | some r => nextNonWord r
    | none => false

/-- Search for a guard word between word boundaries, modelling the first
regex of looks_like_spread (line 196). -/
def spreadWordSearch : Option Char → Chars → Bool
  | _, [] => false
  | prev, c :: cs => (prevNonWord prev && spreadWordHere (c :: cs)) || spreadWordSearch (some c) cs

/-- Test for the signed-number regex of looks_like_spread (line 197) at the
current position: sign, one or more digits, an optional fraction, and a
word boundary after the digits.  Because a dot is not a word character, the
match succeeds exactly when the character after the digit run is absent or
not a word character. -/
def signedNumHere (s : Chars) : Bool :=
  match s with
  | c :: cs =>
    (c == '+' || c == '-') &&
      (let ds := cs.takeWhile Char.isDigit
       !ds.isEmpty && nextNonWord (cs.drop ds.length))
  | [] => false

/-- Search for a signed number preceded by a word boundary.  A sign is not a
word character, so the boundary before it requires a word character
immediately before the sign. -/
def spreadNumSearch : Option Char → Chars → Bool
  | _, [] => false
  | prev, c :: cs =>
    ((match prev with
      | some p => isWordChar p
      | none => false) && signedNumHere (c :: cs)) || spreadNumSearch (some c) cs

/-- Spread guard of choose_winner (lines 194-197): the span is spread-like
when it contains one of the guard words between word boundaries or a signed
numeric token. -/
def looks_like_spread (s : Chars) : Bool :=
  spreadWordSearch none s || spreadNumSearch none s

/-- Weak fallback fields of choose_winner in source order (lines 255-259). -/
inductive WeakPat
  | moneyline
  | pick
  | prediction
deriving DecidableEq

/-- Keyword of a weak fallback field. -/
def weakKw : WeakPat → Chars
  | WeakPat.moneyline => "moneyline".toList
  | WeakPat.pick => "pick".toList
  | WeakPat.prediction => "prediction".toList

/-- Method tag of a weak fallback field. -/
def weakTag : WeakPat → String
  | WeakPat.moneyline => "moneyline_field"
  | WeakPat.pick => "pick_field"
  | WeakPat.prediction => "prediction_field"

/-- Greedy non-empty free-text capture of a weak field. -/
def g1Munch (s : Chars) : Option (Chars × Chars) :=
  let g := s.takeWhile oppChar
  if g.isEmpty then none else some (g, s.drop g.length)

/-- Greedy colon-or-whitespace plus of a weak field with backtracking into
the free-text capture, which also accepts whitespace. -/
def weakGo : Chars → Option (Chars × Chars)
  | [] => none
  | c :: cs =>
    if colonWS c then
      match weakGo cs with
      | some r => some r
      | none => g1Munch (c :: cs)
    else g1Munch (c :: cs)

/-- Tail of a weak field after the keyword: at least one colon-or-space, then
the non-empty free-text capture. -/
def weakColonTail (s : Chars) : Option (Chars × Chars) :=
  match s with
  | c :: cs => if colonWS c then weakGo cs else none
  | [] => none

/-- Match of a weak-field pattern at the current position; the keyword must
sit on a word boundary. -/
def weakAt (kw : Chars) (prev : Option Char) (s : Chars) : Option (Chars × Chars) :=
  if prevNonWord prev then
    match ciPref kw s with
    | some r => weakColonTail r
    | none => none
  else none

/-- Search of one weak-field pattern over the whole text. -/
def weakSearch (p : WeakPat) (text : Chars) : Option MatchG :=
  (searchB (weakAt (weakKw p)) none text).map (fun t => ⟨mkG0 t.1 t.2.2, t.2.1⟩)

/-- Winner side of a verdict, the strings A, B and ambiguous of the source. -/
inductive Winner
  | A
  | B
  | ambiguous
deriving DecidableEq

/-- Verdict triple returned by choose_winner: side, method, matched phrase. -/
abbrev Verdict := Winner × String × Chars

/-- Token normalisation of a captured name: strip then lower, as on lines
220, 227, 235 and 246 of the source. -/
def tokenOf (g1 : Chars) : Chars := lcList (stripChars g1)

/-- Substring test modelling the Python in operator on strings. -/
def prefOf : Chars → Chars → Bool
  | [], _ => true
  | _ :: _, [] => false
  | a :: as, b :: bs => a == b && prefOf as bs

/-- Containment of one character list in another as a contiguous slice. -/
def infOf (p : Chars) : Chars → Bool
  | [] => p.isEmpty
  | c :: cs => prefOf p (c :: cs) || infOf p cs

/-- Step 0 of choose_winner for one side (lines 199-214): the strong
final-score regex, skipped for an empty synonym set, deciding the higher
score when the two scores differ and falling through otherwise. -/
def mfsStep (setL : List Chars) (text : Chars) (hi lo : Winner) : Option Verdict :=
  if setL.isEmpty then none
  else
    (mfsSearch setL text).bind fun m =>
      if m.s1 ≠ m.s2 then
        some ((if m.s2 < m.s1 then hi else lo), "final_score", m.g0)
      else none

/-- One context pattern of step 1 of choose_winner (lines 217-229): the
match is accepted only if its span is not spread-like and the captured
token is empty, a synonym, or the synonym set is empty. -/
def ctxOne (sorted setL : List Chars) (side : Winner) (text : Chars) (p : CtxPat) : Option Verdict :=
  match ctxSearch p sorted text with
  | some m =>
    if looks_like_spread m.g0 then none
    else
      if setL.isEmpty || setL.contains (tokenOf m.g1) || (tokenOf m.g1).isEmpty then
        some (side, "explicit", m.g0)
      else none
  | none => none

/-- Step 1 of choose_winner for one side: the context patterns are tried in
source order and the first accepted match wins. -/
def ctxStep (sorted setL : List Chars) (side : Winner) (text : Chars) : Option Verdict :=
  ctxList.findSome? (ctxOne sorted setL side text)

/-- Step 2 of choose_winner for one side (lines 231-252): the scoreline
pattern with token verification, deciding the higher score when the scores
differ and falling through otherwise. -/
def scoreStep (sorted setL : List Chars) (text : Chars) (hi lo : Winner) : Option Verdict :=
  (scoreSearch sorted text).bind fun m =>
    if setL.isEmpty || setL.contains (tokenOf m.g1) then
      if m.s1 ≠ m.s2 then
        some ((if m.s2 < m.s1 then hi else lo), "scoreline", m.g0)
      else none
    else none

/-- One weak fallback field of step 3 of choose_winner (lines 260-268): a
spread-like span yields nothing, otherwise the captured blob is scanned for
a team-A synonym substring, then a team-B synonym substring. -/
def weakOne (teamA teamB : List Chars) (p : WeakPat) (text : Chars) : Option Verdict :=
  (weakSearch p text).bind fun m =>
    if looks_like_spread m.g0 then none
    else
      if teamA.any (fun s => infOf (lcList s) (lcList m.g1)) then
        some (Winner.A, weakTag p, m.g0)
      else
        if teamB.any (fun s => infOf (lcList s) (lcList m.g1)) then
          some (Winner.B, weakTag p, m.g0)
        else none

/-- Step 3 of choose_winner: the weak fields in source order, first hit
wins. -/
def weakStep (teamA teamB : List Chars) (text : Chars) : Option Verdict :=
  [WeakPat.moneyline, WeakPat.pick, WeakPat.prediction].findSome? (weakOne teamA teamB · text)

/-- The classifier choose_winner of tally_predictions.py (lines 185-270):
strong final-score for A then B, context patterns for A then B, scoreline
for A then B, weak fields, else ambiguous. -/
def choose_winner (text : Chars) (teamA teamB : List Chars) : Verdict :=
  match mfsStep (synList teamA) text Winner.A Winner.B with
  | some r => r
  | none =>
    match mfsStep (synList teamB) text Winner.B Winner.A with
    | some r => r
    | none =>
      match ctxStep (sortByEscLen (synList teamA)) (synList teamA) Winner.A text with
      | some r => r
      | none =>
        match ctxStep (sortByEscLen (synList teamB)) (synList teamB) Winner.B text with
        | some r => r
        | none =>
          match scoreStep (sortByEscLen (synList teamA)) (synList teamA) text Winner.A Winner.B with
          | some r => r
          | none =>
            match scoreStep (sortByEscLen (synList teamB)) (synList teamB) text Winner.B Winner.A with
            | some r => r
            | none =>
              match weakStep teamA teamB text with
              | some r => r
              | none => (Winner.ambiguous, "none", [])

/-- Recency filter within_days of tally_predictions.py (lines 272-275).
Timestamps are modelled as integer seconds; a day of the timedelta is 86400
seconds.  The source reads the ambient clock inside the function at every
call, so the clock value of the call is an explicit argument here. -/
def within_days (utc_dt : Option Int) (days : Int) (now : Int) : Bool :=
  match utc_dt with
  | none => false
  | some t => decide (now - days * 86400 ≤ t)

/-- Decision trace of the per-document loop of main (lines 299-317): each
iteration calls within_days once, with the clock reading of that very
iteration as second component of the pair. -/
def admitDecisions (days : Int) (docs : List (Option Int × Int)) : List Bool :=
  docs.map (fun p => within_days p.1 days p.2)

/-- Vote counts of one matchup, the tally of main (lines 348-351) and of the
app endpoints (app.py lines 154-156 and 204-206). -/
structure Tally where
  votesA : Nat
  votesB : Nat
  ambiguous : Nat
deriving DecidableEq

/-- Aggregation of a verdict-side sequence into a tally by counting each
side, as the sum comprehensions of app.py do. -/
def aggregate (vs : List Winner) : Tally :=
  ⟨vs.count Winner.A, vs.count Winner.B, vs.count Winner.ambiguous⟩

/-- Dominant label of a matchup (app.py lines 208-210). -/
def dominant (t : Tally) : String :=
  if t.votesB < t.votesA then "Team A"
  else if t.votesA < t.votesB then "Team B"
  else "Tie"

/-- Name group of make_team_patterns as data: an alternation when synonyms
exist, the catch-all group otherwise (line 169). -/
inductive NameGroup
  | alts (syns : List Chars)
  | catchAll
deriving DecidableEq

/-- Construction of the name group from the sorted synonym list, following
the conditional expression on line 169 of the source. -/
def name_group (syns : List Chars) : NameGroup :=
  if syns.isEmpty then NameGroup.catchAll else NameGroup.alts syns

/-- Case-insensitive equality of two character lists. -/
def ciEq (a b : Chars) : Bool :=
  match ciPref a b with
  | some [] => true
  | _ => false

/-- Span matching of a name group: the catch-all group matches any span
without a newline, an alternation matches exactly the synonyms. -/
def ngMatchesSpan (g : NameGroup) (s : Chars) : Bool :=
  match g with
  | NameGroup.catchAll => s.all (fun c => c != '\n')
  | NameGroup.alts syns => syns.any (fun y => ciEq y s)

/-- Capture of the synonym alternation at a fixed position, for the
longest-first ordering property. -/
def nameAltCapture (syns : List Chars) (s : Chars) : Option Chars :=
  (nameAltRest syns some s).map (fun p => p.1)

/-- Team-A synonyms of the running example of the source documentation. -/
def team_a_syns : List Chars := ["Houston Texans".toList, "Texans".toList, "Houston".toList]

/-- Team-B synonyms of the running example of the source documentation. -/
def team_b_syns : List Chars :=
  ["San Francisco 49ers".toList, "49ers".toList, "San Francisco".toList, "SF".toList]

/-! Claim theorems. -/

/-- C1 (amended): for every input text, a weak fallback field match whose
captured span is spread-like produces no verdict from that field; however
the text Pick: Texans -2.5 over 49ers is classified as side A with method
explicit, because the explicit pick context pattern matches the span
Pick: Texans, which is not spread-like, before the weak fallback step is
reached. -/
theorem c1_weak_spread_guard :
    (∀ (tA tB : List Chars) (p : WeakPat) (text : Chars) (m : MatchG),
        weakSearch p text = some m → looks_like_spread m.g0 = true →
        weakOne tA tB p text = none)
    ∧ choose_winner "Pick: Texans -2.5 over 49ers".toList team_a_syns team_b_syns
      = (Winner.A, "explicit", "Pick: Texans".toList) := by
  constructor
  · intro tA tB p text m h1 h2
    unfold weakOne
    rw [h1]
    simp [h2]
  · decide

/-- C1 counterexample: the text Pick: Texans -2.5 over 49ers does not yield
the verdict Ambiguous as the claim states; the explicit pick context rule
fires first and returns side A with method explicit. -/
theorem c1_counterexample :
    choose_winner "Pick: Texans -2.5 over 49ers".toList team_a_syns team_b_syns
      = (Winner.A, "explicit", "Pick: Texans".toList)
    ∧ Winner.A ≠ Winner.ambiguous := by
  decide

/-- C1 witness: a concrete weak-field match whose whole span is spread-like,
on which the guard yields no verdict from that field. -/
theorem c1_witness :
    looks_like_spread "moneyline: Texans cover".toList = true
    ∧ weakOne team_a_syns team_b_syns WeakPat.moneyline "moneyline: Texans cover".toList = none :=
  ⟨by decide,
   c1_weak_spread_guard.1 team_a_syns team_b_syns WeakPat.moneyline
     ("moneyline: Texans cover".toList)
     ⟨"moneyline: Texans cover".toList, "Texans cover".toList⟩ (by decide) (by decide)⟩

/-- C2: the strong final-score rules run before the explicit context
patterns.  Whenever the text contains a winner context match for team A
while the team-A final-score regex has no match and the team-B final-score
regex matches with a higher first score, the classifier returns side B with
method final_score and the final-score span as matched phrase. -/
theorem c2_final_score_precedence (text : Chars) (tA tB : List Chars) (m : MatchS)
    (hctx : ctxSearch CtxPat.winner (sortByEscLen (synList tA)) text ≠ none)
    (hA : mfsSearch (synList tA) text = none)
    (hne : (synList tB).isEmpty = false)
    (hB : mfsSearch (synList tB) text = some m)
    (hgt : m.s2 < m.s1) :
    choose_winner text tA tB = (Winner.B, "final_score", m.g0) := by
  have h1 : mfsStep (synList tA) text Winner.A Winner.B = none := by
    unfold mfsStep
    rw [hA]
    simp
  have h2 : mfsStep (synList tB) text Winner.B Winner.A
      = some (Winner.B, "final_score", m.g0) := by
    unfold mfsStep
    rw [hne, hB]
    simp [Nat.ne_of_gt hgt, hgt]
  unfold choose_winner
  rw [h1, h2]

/-- C2 witness: a text containing both a winner phrase for team A and a
final-score phrase for team B with scores 24 and 17 classifies as side B
with method final_score. -/
theorem c2_witness :
    mfsSearch (synList team_b_syns)
        "winner: Texans. final score: 49ers 24, Texans 17".toList
      = some ⟨"final score: 49ers 24, Texans 17".toList, "49ers".toList, 24, 17⟩
    ∧ choose_winner "winner: Texans. final score: 49ers 24, Texans 17".toList
        team_a_syns team_b_syns
      = (Winner.B, "final_score", "final score: 49ers 24, Texans 17".toList) :=
  ⟨by decide,
   c2_final_score_precedence "winner: Texans. final score: 49ers 24, Texans 17".toList
     team_a_syns team_b_syns
     ⟨"final score: 49ers 24, Texans 17".toList, "49ers".toList, 24, 17⟩
     (by decide) (by decide) (by decide) (by decide) (by decide)⟩

/-- C3: the recency filter returns false on an absent timestamp, and for a
present timestamp it admits exactly the instants at or after the cutoff of
now minus windowDays days; the bound is inclusive, so a timestamp exactly
at the cutoff is admitted and one second older is rejected. -/
theorem c3_within_days_window :
    (∀ (d now : Int), within_days none d now = false)
    ∧ (∀ (t d now : Int), within_days (some t) d now = decide (now - d * 86400 ≤ t))
    ∧ (∀ (d now : Int),
        within_days (some (now - d * 86400)) d now = true
        ∧ within_days (some (now - d * 86400 - 1)) d now = false) := by
  refine ⟨fun d now => rfl, fun t d now => rfl, fun d now => ⟨?_, ?_⟩⟩
  · simp [within_days]
  · simp [within_days]

/-- C4: an empty synonym list degrades the name group of make_team_patterns
to the catch-all group, which matches every non-empty newline-free span,
and the resulting context patterns still match, capturing an arbitrary
span. -/
theorem c4_empty_synonym_catchall :
    name_group (sortByEscLen (synList [])) = NameGroup.catchAll
    ∧ (∀ s : Chars, s ≠ [] → s.all (fun c => c != '\n') = true →
        ngMatchesSpan NameGroup.catchAll s = true)
    ∧ ctxSearch CtxPat.pick (sortByEscLen (synList [])) "pick: anything at all".toList
      = some ⟨"pick: anything at all".toList, "anything at all".toList⟩ := by
  refine ⟨rfl, fun s _ h => h, by decide⟩

/-- C4 witness: the catch-all group matches the concrete non-empty span x. -/
theorem c4_witness :
    ("x".toList ≠ ([] : Chars))
    ∧ ngMatchesSpan NameGroup.catchAll "x".toList = true :=
  ⟨by decide, c4_empty_synonym_catchall.2.1 "x".toList (by decide) (by decide)⟩

/-- C5 (amended): when a final-score or scoreline match captures two equal
scores, that rule yields no verdict and the cascade continues, so the text
Texans 24, Cowboys 24 classifies as Ambiguous; the text
Texans 24, 49ers 24, however, classifies as side B with method scoreline,
because the lazy opponent slot matches the single space and the second
score is read as the leading digits 49 of 49ers, giving 24 against 49
rather than a tie. -/
theorem c5_equal_scores_fall_through :
    (∀ (setL : List Chars) (text : Chars) (hi lo : Winner) (m : MatchS),
        mfsSearch setL text = some m → m.s1 = m.s2 →
        mfsStep setL text hi lo = none)
    ∧ (∀ (sorted setL : List Chars) (text : Chars) (hi lo : Winner) (m : MatchS),
        scoreSearch sorted text = some m → m.s1 = m.s2 →
        scoreStep sorted setL text hi lo = none)
    ∧ choose_winner "Texans 24, Cowboys 24".toList team_a_syns team_b_syns
      = (Winner.ambiguous, "none", [])
    ∧ choose_winner "Texans 24, 49ers 24".toList team_a_syns team_b_syns
      = (Winner.B, "scoreline", "Texans 24, 49".toList) := by
  refine ⟨?_, ?_, by decide, by decide⟩
  · intro setL text hi lo m h1 h2
    unfold mfsStep
    rw [h1]
    simp [h2]
  · intro sorted setL text hi lo m h1 h2
    unfold scoreStep
    rw [h1]
    simp [h2]

/-- C5 counterexample: the text Texans 24, 49ers 24 does not classify as
Ambiguous as the claim states; the scoreline rule matches the span
Texans 24, 49 with scores 24 and 49 and forces side B. -/
theorem c5_counterexample :
    choose_winner "Texans 24, 49ers 24".toList team_a_syns team_b_syns
      = (Winner.B, "scoreline", "Texans 24, 49".toList)
    ∧ Winner.B ≠ Winner.ambiguous := by
  decide

/-- C5 witness: concrete equal-score matches of the final-score and
scoreline rules on which both rules yield no verdict. -/
theorem c5_witness :
    mfsSearch (synList team_a_syns) "final score: Texans 24, Cowboys 24".toList
      = some ⟨"final score: Texans 24, Cowboys 24".toList, "Texans".toList, 24, 24⟩
    ∧ mfsStep (synList team_a_syns) "final score: Texans 24, Cowboys 24".toList
        Winner.A Winner.B = none
    ∧ scoreSearch (sortByEscLen (synList team_a_syns)) "Texans 24, Cowboys 24".toList
      = some ⟨"Texans 24, Cowboys 24".toList, "Texans".toList, 24, 24⟩
    ∧ scoreStep (sortByEscLen (synList team_a_syns)) (synList team_a_syns)
        "Texans 24, Cowboys 24".toList Winner.A Winner.B = none :=
  ⟨by decide,
   c5_equal_scores_fall_through.1 (synList team_a_syns)
     ("final score: Texans 24, Cowboys 24".toList) Winner.A Winner.B
     ⟨"final score: Texans 24, Cowboys 24".toList, "Texans".toList, 24, 24⟩
     (by decide) rfl,
   by decide,
   c5_equal_scores_fall_through.2.1 (sortByEscLen (synList team_a_syns))
     (synList team_a_syns) ("Texans 24, Cowboys 24".toList) Winner.A Winner.B
     ⟨"Texans 24, Cowboys 24".toList, "Texans".toList, 24, 24⟩
     (by decide) rfl⟩

/-- C6: aggregation is a pure multiset count over the verdict sides: every
permutation of a verdict sequence yields an identical tally, and
re-aggregating the same sequence yields the same tally. -/
theorem c6_aggregate_permutation :
    (∀ (l₁ l₂ : List Winner), l₁.Perm l₂ → aggregate l₁ = aggregate l₂)
    ∧ (∀ l : List Winner, aggregate l = aggregate l) := by
  refine ⟨fun l₁ l₂ h => ?_, fun l => rfl⟩
  simp [aggregate, h.count_eq]

/-- C6 witness: a concrete permutation of four verdicts with identical
tallies. -/
theorem c6_witness :
    aggregate [Winner.A, Winner.B, Winner.ambiguous, Winner.A]
      = aggregate [Winner.ambiguous, Winner.A, Winner.A, Winner.B] :=
  c6_aggregate_permutation.1 _ _ (by decide)

/-- C7: an empty verdict sequence produces the well-formed zero tally, and
its derived dominant label is Tie. -/
theorem c7_empty_tally_tie :
    aggregate [] = Tally.mk 0 0 0 ∧ dominant (aggregate []) = "Tie" :=
  ⟨rfl, rfl⟩

/-- C8: the synonym list is ordered by descending escaped length, and on a
descriptor holding both 49ers and San Francisco 49ers the alternation
captures the full longer synonym over text starting with the longer
phrase. -/
theorem c8_longest_first :
    (∀ l : List Chars, List.Sorted escOrder (sortByEscLen l))
    ∧ nameAltCapture (sortByEscLen (synList ["49ers".toList, "San Francisco 49ers".toList]))
        "san francisco 49ers win the game".toList
      = some "san francisco 49ers".toList :=
  ⟨fun l => List.sorted_insertionSort escOrder l, by decide⟩

/-- C9 (amended): the clock is read inside within_days at every call, once
per document, so a document is admitted exactly when its timestamp is at or
after the cutoff computed from the clock value of its own call; two
documents with identical timestamps judged at different instants can
receive different decisions. -/
theorem c9_per_call_now :
    (∀ (t d now : Int), within_days (some t) d now = decide (now - d * 86400 ≤ t))
    ∧ (∃ (t d n₁ n₂ : Int),
        within_days (some t) d n₁ = true ∧ within_days (some t) d n₂ = false) :=
  ⟨fun t d now => rfl, ⟨86400, 1, 172800, 172801, by decide, by decide⟩⟩

/-- C9 counterexample: in one run, two documents with the identical
timestamp 86400 judged at the instants 172800 and 172801 with a one-day
window receive different decisions, so the decisions do not depend on a
single per-run cutoff. -/
theorem c9_counterexample :
    admitDecisions 1 [(some 86400, 172800), (some 86400, 172801)] = [true, false]
    ∧ ¬ (∀ (t d n₁ n₂ : Int), within_days (some t) d n₁ = within_days (some t) d n₂) := by
  refine ⟨by decide, fun h => ?_⟩
  have h1 := h 86400 1 172800 172801
  have e1 : within_days (some (86400 : Int)) 1 172800 = true := by decide
  have e2 : within_days (some (86400 : Int)) 1 172801 = false := by decide
  rw [e1, e2] at h1
  exact Bool.noConfusion h1

/-- C10: the final-score rule does not verify the opponent name: the text
final score: Texans 24, Cowboys 17 returns side A with method final_score
although cowboys is a synonym of neither team. -/
theorem c10_third_party_opponent :
    choose_winner "final score: Texans 24, Cowboys 17".toList team_a_syns team_b_syns
      = (Winner.A, "final_score", "final score: Texans 24, Cowboys 17".toList)
    ∧ "cowboys".toList ∉ synList team_a_syns
    ∧ "cowboys".toList ∉ synList team_b_syns := by
  refine ⟨by decide, by decide, by decide⟩

end TallyScraper
